import Mathlib

/-!
Verification of the flood-impact data pipeline
(`dataset_generation/` scripts of the thesis-flood-impact-analysis repository).

The pipeline operates on in-memory tables of floating-point values where
`NaN` marks missing data.  We shallow-embed the relevant computations over
`Option ℚ`: `none` models a missing / NaN (or otherwise non-finite) value and
`some q` a finite float.  Pandas reductions that skip NaN (`Series.sum`) are
embedded accordingly.
-/

namespace FloodPipeline

/-- A NaN-able numeric cell value: `none` is NaN / missing. -/
abbrev NVal := Option ℚ

/-- Multiplication with NaN propagation (`x * y` in pandas). -/
def nmul : NVal → NVal → NVal
  | some a, some b => some (a * b)
  | _, _ => none

/-- Division with NaN propagation.  Division by zero produces a non-finite
float (`inf` or `NaN`) in pandas; both are abstracted to `none` here. -/
def ndiv : NVal → NVal → NVal
  | some a, some b => if b = 0 then none else some (a / b)
  | _, _ => none

/-- `Series.sum()` with pandas' default `skipna=True`: NaN entries are
dropped, and an all-NaN (or empty) series sums to `0`. -/
def seriesSum (xs : List NVal) : ℚ := (xs.filterMap id).sum

/-- `flooded_areas > 0` elementwise (NaN compares as `False` in pandas). -/
def areaPos : NVal → Bool
  | some a => decide (0 < a)
  | none => false

/-- `(flooded_areas == 0) | flooded_areas.isna()` elementwise. -/
def areaZeroOrNaN : NVal → Bool
  | some a => decide (a = 0)
  | none => true

/-- `a` is NaN or a nonnegative value.  `flooded_area` is produced upstream
(`extract_flood_metrics.py`) as a sum of nonnegative per-pixel areas, so
every reachable value satisfies this. -/
def areaNonneg : NVal → Prop
  | some a => 0 ≤ a
  | none => True

instance : DecidablePred areaNonneg := by
  intro a
  cases a <;> simp [areaNonneg] <;> infer_instance

/-- One merged row of a disaster-id group in
`compute_pop_weighted_damages.py` (one disaggregated `mon-yr-adm1` event).
`totalAffected` / `totalDamage` are the registry's aggregate values
(`"Total Affected"`, `"Total Damage, Adjusted ('000 US$)"`), carried
(repeated) on every row of the group. -/
structure EventRow where
  flooded_population : NVal
  flooded_area : NVal
  totalAffected : NVal
  totalDamage : NVal
  flags : String
deriving Repr, DecidableEq

/-- Output row of `allocate_impacts`: the (possibly rewritten) input row
plus the `population_weight` column and the two
`" (population-weighted)"` impact columns. -/
structure AllocRow where
  base : EventRow
  population_weight : NVal
  affectedPW : NVal
  damagePW : NVal
deriving Repr, DecidableEq

/-- `allocate_impacts(df, method)` from
`compute_pop_weighted_damages.py` (lines 91–194).

* Method 1: `population_weight = flooded_population / flooded_population.sum()`,
  flag `"; 14"` appended, allocated impact = impact × weight.
* Method 2: `population_weight = 1 / len(df)`, flag `"; 13"`.
* Method 3: the rows with `flooded_area > 0` are population-weighted over
  95 % of the aggregate, the remaining rows split 5 % equally; the raw
  impact columns are reset to the group's first-row value afterwards; the
  `population_weight` column is set to NaN; flag `"; 15"`.

`len(df) = 0` would raise `ZeroDivisionError` in the source (method 2) and
`iloc[0]` would raise an `IndexError` (method 3); `main` never reaches
either with an empty frame, and the embedding of those unreachable points
uses `ℚ`'s `1/0 = 0` and a `none` first-row value. -/
def allocate_impacts (g : List EventRow) (method : ℕ) : List AllocRow :=
  match method with
  | 1 =>
    let S : ℚ := seriesSum (g.map (·.flooded_population))
    g.map fun r =>
      let w := ndiv r.flooded_population (some S)
      { base := { r with flags := r.flags ++ "; 14" }
        population_weight := w
        affectedPW := nmul r.totalAffected w
        damagePW := nmul r.totalDamage w }
  | 2 =>
    let w : NVal := some (1 / (g.length : ℚ))
    g.map fun r =>
      { base := { r with flags := r.flags ++ "; 13" }
        population_weight := w
        affectedPW := nmul r.totalAffected w
        damagePW := nmul r.totalDamage w }
  | 3 =>
    let nz := g.filter (fun r => areaPos r.flooded_area)
    let zn := g.filter (fun r => !areaPos r.flooded_area)
    let Snz : ℚ := seriesSum (nz.map (·.flooded_population))
    let affectedVal : NVal := match g.head? with
      | some r => r.totalAffected
      | none => none
    let damageVal : NVal := match g.head? with
      | some r => r.totalDamage
      | none => none
    let nzRows := nz.map fun r =>
      let w := ndiv r.flooded_population (some Snz)
      { base := { r with flags := r.flags ++ "; 15",
                         totalAffected := affectedVal,
                         totalDamage := damageVal }
        population_weight := none
        affectedPW := nmul (nmul affectedVal (some (1 - 5/100))) w
        damagePW := nmul (nmul damageVal (some (1 - 5/100))) w : AllocRow }
    let znRows := zn.map fun r =>
      let w : NVal := some (1 / (zn.length : ℚ))
      { base := { r with flags := r.flags ++ "; 15",
                         totalAffected := affectedVal,
                         totalDamage := damageVal }
        population_weight := none
        affectedPW := nmul (nmul affectedVal (some (5/100))) w
        damagePW := nmul (nmul damageVal (some (5/100))) w : AllocRow }
    nzRows ++ znRows
  | _ => []

/-- The allocation-policy dispatch of `main` in
`compute_pop_weighted_damages.py` (lines 60–80): which `method` the
`if all_nonzero / elif all_zeroes_or_nans / elif any_nonzero and
any_zeros_or_nans` chain selects for a group's `flooded_area` series
(`none` when the chain falls through and no allocation runs). -/
def selectMethod (areas : List NVal) : Option ℕ :=
  if areas.all areaPos then some 1
  else if areas.all areaZeroOrNaN then some 2
  else if areas.any areaPos && areas.any areaZeroOrNaN then some 3
  else none

example : selectMethod [some 5, some 3] = some 1 := by decide
example : selectMethod [some 0, none] = some 2 := by decide
example : selectMethod [some 5, some 0] = some 3 := by decide

lemma area_trichotomy (a : NVal) (h : areaNonneg a) :
    areaPos a = true ∨ areaZeroOrNaN a = true := by
  cases a with
  | none => simp [areaZeroOrNaN]
  | some q =>
    simp only [areaNonneg] at h
    simp only [areaPos, areaZeroOrNaN, decide_eq_true_eq]
    rcases h.lt_or_eq with h' | h'
    · exact Or.inl h'
    · exact Or.inr h'.symm

lemma areaZeroOrNaN_of_not_pos (a : NVal) (h : areaNonneg a)
    (hp : ¬ areaPos a = true) : areaZeroOrNaN a = true := by
  rcases area_trichotomy a h with h' | h'
  · exact absurd h' hp
  · exact h'

lemma not_areaPos_of_zeroOrNaN (a : NVal) (h : areaZeroOrNaN a = true) :
    areaPos a = false := by
  cases a with
  | none => rfl
  | some q =>
    simp only [areaZeroOrNaN, decide_eq_true_eq] at h
    simp [areaPos, h]

lemma seriesSum_nil : seriesSum [] = 0 := rfl

lemma seriesSum_cons (x : NVal) (xs : List NVal) :
    seriesSum (x :: xs) = x.getD 0 + seriesSum xs := by
  cases x <;> simp [seriesSum]

lemma seriesSum_append (xs ys : List NVal) :
    seriesSum (xs ++ ys) = seriesSum xs + seriesSum ys := by
  simp [seriesSum, List.filterMap_append]

lemma seriesSum_map_const {β : Type} (rows : List β) (v : ℚ) :
    seriesSum (rows.map (fun _ => some v)) = rows.length * v := by
  induction rows with
  | nil => simp [seriesSum]
  | cons r t ih =>
    simp only [List.map_cons, seriesSum_cons, ih, List.length_cons,
      Option.getD_some]
    push_cast
    ring

/-- Summing `c * (pop_i / S)` over a row list gives
`c * (Σ pop_i) / S`, where both sums skip NaN rows (a NaN population
yields a NaN product, dropped from the column sum, and is likewise
skipped by the denominator-style sum on the right). -/
lemma seriesSum_const_weighted (rows : List EventRow) (c S : ℚ) (hS : S ≠ 0) :
    seriesSum (rows.map (fun r => nmul (some c) (ndiv r.flooded_population (some S))))
      = c * seriesSum (rows.map (·.flooded_population)) / S := by
  induction rows with
  | nil => simp [seriesSum]
  | cons r t ih =>
    cases hpv : r.flooded_population with
    | none =>
      rw [List.map_cons, List.map_cons, seriesSum_cons, seriesSum_cons, ih, hpv]
      simp [ndiv, nmul]
    | some p =>
      rw [List.map_cons, List.map_cons, seriesSum_cons, seriesSum_cons, ih, hpv]
      simp only [ndiv, if_neg hS, nmul, Option.getD_some]
      field_simp
      ring

lemma selectMethod_eq_one_iff (areas : List NVal) :
    selectMethod areas = some 1 ↔ areas.all areaPos = true := by
  unfold selectMethod
  split_ifs <;> simp [*]

lemma selectMethod_eq_two_iff (areas : List NVal) :
    selectMethod areas = some 2 ↔
      (¬ areas.all areaPos = true ∧ areas.all areaZeroOrNaN = true) := by
  unfold selectMethod
  split_ifs <;> simp [*]

lemma selectMethod_eq_three_iff (areas : List NVal) :
    selectMethod areas = some 3 ↔
      (¬ areas.all areaPos = true ∧ ¬ areas.all areaZeroOrNaN = true ∧
        (areas.any areaPos && areas.any areaZeroOrNaN) = true) := by
  unfold selectMethod
  split_ifs <;> simp [*]

/-- The concrete two-row group of the spec's policy-3 scenario:
`flooded_area = [5, 0]`, aggregate `Total Affected = 100`,
aggregate damages `= 200`. -/
def policyDemoGroup : List EventRow :=
  [{ flooded_population := some 10, flooded_area := some 5,
     totalAffected := some 100, totalDamage := some 200, flags := "" },
   { flooded_population := some 7, flooded_area := some 0,
     totalAffected := some 100, totalDamage := some 200, flags := "" }]

/-- C2: for every non-empty group whose `flooded_area` values are NaN or
nonnegative (as produced by the flood-metric extraction), the dispatch of
`compute_pop_weighted_damages.main` selects exactly one of the three
mutually exclusive policies: 1 iff all values are `> 0`, 2 iff all are `0`
or NaN, 3 iff they are mixed.  Moreover `[5, 3]` selects policy 1,
`[0, NaN]` policy 2, and `[5, 0]` policy 3, where the `5`-row is allocated
95 % and the `0`-row 5 % of the aggregate impact. -/
theorem policy_selection (areas : List NVal) (hne : areas ≠ [])
    (hnn : ∀ a ∈ areas, areaNonneg a) :
    ((selectMethod areas).isSome ∧
      ∀ m, selectMethod areas = some m → m = 1 ∨ m = 2 ∨ m = 3) ∧
    (selectMethod areas = some 1 ↔ ∀ a ∈ areas, areaPos a = true) ∧
    (selectMethod areas = some 2 ↔ ∀ a ∈ areas, areaZeroOrNaN a = true) ∧
    (selectMethod areas = some 3 ↔
      ((∃ a ∈ areas, areaPos a = true) ∧ (∃ a ∈ areas, areaZeroOrNaN a = true))) ∧
    selectMethod [some 5, some 3] = some 1 ∧
    selectMethod [some 0, none] = some 2 ∧
    selectMethod [some 5, some 0] = some 3 ∧
    (allocate_impacts policyDemoGroup 3).map (·.affectedPW) = [some 95, some 5] := by
  have hdemo :
      (allocate_impacts policyDemoGroup 3).map (·.affectedPW) = [some 95, some 5] := by
    norm_num [allocate_impacts, policyDemoGroup, nmul, ndiv, seriesSum, areaPos,
      List.filterMap_cons, id]
  obtain ⟨a0, ha0⟩ : ∃ a, a ∈ areas := List.exists_mem_of_ne_nil areas hne
  have hPZ : ¬ (areas.all areaPos = true ∧ areas.all areaZeroOrNaN = true) := by
    rintro ⟨hP, hZ⟩
    have h1 := List.all_eq_true.1 hP a0 ha0
    have h2 := List.all_eq_true.1 hZ a0 ha0
    rw [not_areaPos_of_zeroOrNaN a0 h2] at h1
    exact Bool.false_ne_true h1
  refine ⟨⟨?_, ?_⟩, ?_, ?_, ?_, by decide, by decide, by decide, hdemo⟩
  · -- some method is always selected for a nonempty nonnegative group
    unfold selectMethod
    split_ifs with h1 h2 h3
    · rfl
    · rfl
    · rfl
    · exfalso
      apply h3
      simp only [List.all_eq_true, not_forall] at h1 h2
      obtain ⟨x, hx, hxp⟩ := h1
      obtain ⟨y, hy, hyz⟩ := h2
      have hxz := areaZeroOrNaN_of_not_pos x (hnn x hx) hxp
      have hyp := areaZeroOrNaN_of_not_pos y (hnn y hy)
      rw [Bool.and_eq_true, List.any_eq_true, List.any_eq_true]
      refine ⟨⟨y, hy, ?_⟩, ⟨x, hx, hxz⟩⟩
      rcases area_trichotomy y (hnn y hy) with h | h
      · exact h
      · exact absurd h hyz
  · intro m hm
    unfold selectMethod at hm
    split_ifs at hm <;> simp_all
  · rw [selectMethod_eq_one_iff, List.all_eq_true]
  · rw [selectMethod_eq_two_iff]
    constructor
    · rintro ⟨-, hZ⟩
      exact List.all_eq_true.1 hZ
    · intro h
      have hZ := List.all_eq_true.2 h
      exact ⟨fun hP => hPZ ⟨hP, hZ⟩, hZ⟩
  · rw [selectMethod_eq_three_iff]
    simp only [Bool.and_eq_true, List.any_eq_true]
    constructor
    · exact fun h => h.2.2
    · rintro ⟨⟨x, hx, hxp⟩, ⟨y, hy, hyz⟩⟩
      refine ⟨?_, ?_, ⟨x, hx, hxp⟩, ⟨y, hy, hyz⟩⟩
      · simp only [List.all_eq_true, not_forall]
        exact ⟨y, hy, by simp [not_areaPos_of_zeroOrNaN y hyz]⟩
      · simp only [List.all_eq_true, not_forall]
        refine ⟨x, hx, fun hxz => ?_⟩
        rw [not_areaPos_of_zeroOrNaN x hxz] at hxp
        exact Bool.false_ne_true hxp

/-- Witness for `policy_selection` at the concrete mixed group
`flooded_area = [5, 0]`. -/
theorem policy_selection_witness :
    selectMethod [some (5 : ℚ), some 0] = some 3 :=
  ((policy_selection [some 5, some 0] (by decide) (by decide)).2.2.2.1).mpr
    (by decide)

lemma selectMethod_mem (areas : List NVal) (m : ℕ)
    (hm : selectMethod areas = some m) : m = 1 ∨ m = 2 ∨ m = 3 := by
  unfold selectMethod at hm
  split_ifs at hm <;> simp_all

/-- C1 (amended): conservation of allocated impacts.  For a non-empty
disaster-id group carrying the aggregate values `A` and `D` on every row,
whichever method `main`'s dispatch selects, the pandas column sums of the
two allocated impact columns equal `A` and `D` exactly — provided the
(NaN-skipping) `flooded_population` sum over the population-weighted rows
is nonzero.  NaN-population rows drop out of both the weight denominator
and the column sum, so they do not break conservation; only a zero
population sum does (the weights become `0/0 = NaN`, see the
counterexample). -/
theorem allocation_conservation
    (g : List EventRow) (A D : ℚ) (m : ℕ)
    (hne : g ≠ [])
    (hA : ∀ r ∈ g, r.totalAffected = some A)
    (hD : ∀ r ∈ g, r.totalDamage = some D)
    (hm : selectMethod (g.map (·.flooded_area)) = some m)
    (hS : m ≠ 2 →
      seriesSum ((g.filter (fun r => areaPos r.flooded_area)).map
        (·.flooded_population)) ≠ 0) :
    seriesSum ((allocate_impacts g m).map (·.affectedPW)) = A ∧
    seriesSum ((allocate_impacts g m).map (·.damagePW)) = D := by
  rcases selectMethod_mem _ m hm with rfl | rfl | rfl
  · -- method 1: population weighting over the whole group
    have hallg : ∀ r ∈ g, areaPos r.flooded_area = true := by
      have h := List.all_eq_true.1 ((selectMethod_eq_one_iff _).1 hm)
      exact fun r hr => h _ (List.mem_map_of_mem _ hr)
    have hfilter : g.filter (fun r => areaPos r.flooded_area) = g :=
      List.filter_eq_self.2 (fun r hr => hallg r hr)
    have hS1 : seriesSum (g.map (·.flooded_population)) ≠ 0 := by
      have := hS (by norm_num)
      rwa [hfilter] at this
    constructor
    · have hmap : (allocate_impacts g 1).map (·.affectedPW)
          = g.map (fun r => nmul (some A)
              (ndiv r.flooded_population (some (seriesSum (g.map (·.flooded_population)))))) := by
        simp only [allocate_impacts, List.map_map]
        apply List.map_congr_left
        intro r hr
        simp [Function.comp, hA r hr]
      rw [hmap, seriesSum_const_weighted g A _ hS1,
        mul_div_assoc, div_self hS1, mul_one]
    · have hmap : (allocate_impacts g 1).map (·.damagePW)
          = g.map (fun r => nmul (some D)
              (ndiv r.flooded_population (some (seriesSum (g.map (·.flooded_population)))))) := by
        simp only [allocate_impacts, List.map_map]
        apply List.map_congr_left
        intro r hr
        simp [Function.comp, hD r hr]
      rw [hmap, seriesSum_const_weighted g D _ hS1,
        mul_div_assoc, div_self hS1, mul_one]
  · -- method 2: equal split
    have hn : (g.length : ℚ) ≠ 0 := by
      exact_mod_cast (List.length_pos.2 hne).ne'
    constructor
    · have hmap : (allocate_impacts g 2).map (·.affectedPW)
          = g.map (fun _ => some (A * (1 / (g.length : ℚ)))) := by
        simp only [allocate_impacts, List.map_map]
        apply List.map_congr_left
        intro r hr
        simp [Function.comp, nmul, hA r hr]
      rw [hmap, seriesSum_map_const]
      field_simp
    · have hmap : (allocate_impacts g 2).map (·.damagePW)
          = g.map (fun _ => some (D * (1 / (g.length : ℚ)))) := by
        simp only [allocate_impacts, List.map_map]
        apply List.map_congr_left
        intro r hr
        simp [Function.comp, nmul, hD r hr]
      rw [hmap, seriesSum_map_const]
      field_simp
  · -- method 3: mixed 95/5 split
    obtain ⟨r0, t, rfl⟩ := List.exists_cons_of_ne_nil hne
    set g := r0 :: t with hg
    have hhead : g.head? = some r0 := rfl
    have hA0 : r0.totalAffected = some A := hA r0 (by simp [hg])
    have hD0 : r0.totalDamage = some D := hD r0 (by simp [hg])
    have h3 := (selectMethod_eq_three_iff _).1 hm
    have hzn : ∃ r ∈ g, areaZeroOrNaN r.flooded_area = true := by
      obtain ⟨-, -, hany⟩ := h3
      rw [Bool.and_eq_true, List.any_eq_true, List.any_eq_true] at hany
      obtain ⟨a, ha, haz⟩ := hany.2
      obtain ⟨r, hr, rfl⟩ := List.mem_map.1 ha
      exact ⟨r, hr, haz⟩
    have hznne : (g.filter (fun r => !areaPos r.flooded_area)).length ≠ 0 := by
      obtain ⟨r, hr, hz⟩ := hzn
      have : r ∈ g.filter (fun r => !areaPos r.flooded_area) :=
        List.mem_filter.2 ⟨hr, by rw [not_areaPos_of_zeroOrNaN _ hz]; rfl⟩
      intro hlen
      rw [List.length_eq_zero] at hlen
      rw [hlen] at this
      exact List.not_mem_nil r this
    have hznq : ((g.filter (fun r => !areaPos r.flooded_area)).length : ℚ) ≠ 0 := by
      exact_mod_cast hznne
    have hSnz : seriesSum ((g.filter (fun r => areaPos r.flooded_area)).map
        (·.flooded_population)) ≠ 0 := hS (by norm_num)
    constructor
    · have hmap : (allocate_impacts g 3).map (·.affectedPW)
          = ((g.filter (fun r => areaPos r.flooded_area)).map
              (fun r => nmul (some (A * (1 - 5/100)))
                (ndiv r.flooded_population
                  (some (seriesSum ((g.filter (fun r => areaPos r.flooded_area)).map
                    (·.flooded_population)))))))
            ++ ((g.filter (fun r => !areaPos r.flooded_area)).map
              (fun _ => some (A * (5/100) *
                (1 / ((g.filter (fun r => !areaPos r.flooded_area)).length : ℚ))))) := by
        simp only [allocate_impacts, hhead, List.map_append, List.map_map]
        congr 1
        · apply List.map_congr_left
          intro r hr
          simp [Function.comp, nmul, hA0]
        · apply List.map_congr_left
          intro r hr
          simp [Function.comp, nmul, hA0, mul_assoc]
      rw [hmap, seriesSum_append,
        seriesSum_const_weighted _ _ _ hSnz, seriesSum_map_const,
        mul_div_assoc, div_self hSnz]
      field_simp
      ring
    · have hmap : (allocate_impacts g 3).map (·.damagePW)
          = ((g.filter (fun r => areaPos r.flooded_area)).map
              (fun r => nmul (some (D * (1 - 5/100)))
                (ndiv r.flooded_population
                  (some (seriesSum ((g.filter (fun r => areaPos r.flooded_area)).map
                    (·.flooded_population)))))))
            ++ ((g.filter (fun r => !areaPos r.flooded_area)).map
              (fun _ => some (D * (5/100) *
                (1 / ((g.filter (fun r => !areaPos r.flooded_area)).length : ℚ))))) := by
        simp only [allocate_impacts, hhead, List.map_append, List.map_map]
        congr 1
        · apply List.map_congr_left
          intro r hr
          simp [Function.comp, nmul, hD0]
        · apply List.map_congr_left
          intro r hr
          simp [Function.comp, nmul, hD0, mul_assoc]
      rw [hmap, seriesSum_append,
        seriesSum_const_weighted _ _ _ hSnz, seriesSum_map_const,
        mul_div_assoc, div_self hSnz]
      field_simp
      ring

/-- Single-row method-1 group used to witness `allocation_conservation`. -/
def consWitnessRow : EventRow :=
  { flooded_population := some 4, flooded_area := some 2,
    totalAffected := some 100, totalDamage := some 200, flags := "" }

/-- Witness for `allocation_conservation` on a concrete one-row group. -/
theorem allocation_conservation_witness :
    seriesSum ((allocate_impacts [consWitnessRow] 1).map (·.affectedPW)) = 100 ∧
    seriesSum ((allocate_impacts [consWitnessRow] 1).map (·.damagePW)) = 200 :=
  allocation_conservation [consWitnessRow] 100 200 1
    (by decide) (by decide) (by decide) (by decide)
    (by norm_num [seriesSum, consWitnessRow, areaPos, List.filterMap_cons, id])

/-- A flooded row (`flooded_area = 5 > 0`) whose `flooded_population` is
`0`: realistic when the flood mask covers uninhabited pixels. -/
def consCexRow : EventRow :=
  { flooded_population := some 0, flooded_area := some 5,
    totalAffected := some 100, totalDamage := some 200, flags := "" }

/-- Counterexample to C1 as stated: for the single-row group
`[consCexRow]` the dispatch selects policy 1, every row carries the
aggregate `Total Affected = 100`, yet the allocated column is NaN
(`0 / 0` weight) and its pandas sum is `0`, which differs from `100` by
far more than the `1e-6` tolerance. -/
theorem allocation_conservation_cex :
    selectMethod ([consCexRow].map (·.flooded_area)) = some 1 ∧
    (∀ r ∈ [consCexRow], r.totalAffected = some 100) ∧
    seriesSum ((allocate_impacts [consCexRow] 1).map (·.affectedPW)) = 0 ∧
    ¬ (|seriesSum ((allocate_impacts [consCexRow] 1).map (·.affectedPW)) - 100|
        ≤ 1 / 1000000) := by
  have h : (allocate_impacts [consCexRow] 1).map (·.affectedPW) = [none] := by
    norm_num [allocate_impacts, consCexRow, nmul, ndiv, seriesSum,
      List.filterMap_cons, id]
  refine ⟨by decide, by decide, ?_, ?_⟩
  · rw [h]; rfl
  · rw [h]
    norm_num [seriesSum]

/-! ## Calendar model for `split_event_by_month` (`utils/emdat_toolbox.py`) -/

/-- Gregorian leap-year rule (as used by `pandas` timestamps and
`calendar.monthrange`). -/
def isLeap (y : ℕ) : Bool := (y % 4 == 0 && y % 100 != 0) || y % 400 == 0

/-- Number of days of month `m` (1–12) of year `y`. -/
def daysInMonth (y m : ℕ) : ℕ :=
  if m = 2 then (if isLeap y then 29 else 28)
  else if m = 4 ∨ m = 6 ∨ m = 9 ∨ m = 11 then 30
  else 31

/-- A calendar date (pandas `Timestamp` at day resolution). -/
structure Date where
  year : ℕ
  month : ℕ
  day : ℕ
deriving Repr, DecidableEq

/-- The date is an actual calendar date. -/
def Date.Valid (d : Date) : Prop :=
  1 ≤ d.month ∧ d.month ≤ 12 ∧ 1 ≤ d.day ∧ d.day ≤ daysInMonth d.year d.month

instance (d : Date) : Decidable d.Valid := by
  unfold Date.Valid
  infer_instance

/-- Linear index of the date's calendar month. -/
def Date.mIdx (d : Date) : ℕ := d.year * 12 + (d.month - 1)

/-- Chronological encoding of a date: valid days are `1..31 < 32`, so for
valid dates `enc` orders exactly as pandas `Timestamp` comparison. -/
def Date.enc (d : Date) : ℕ := d.mIdx * 32 + d.day

/-- Python `max(a, b)` on timestamps: `b` if `a < b` else `a`. -/
def dmax (a b : Date) : Date := if a.enc < b.enc then b else a

/-- Python `min(a, b)` on timestamps: `b` if `b < a` else `a`. -/
def dmin (a b : Date) : Date := if b.enc < a.enc then b else a

/-- First day of the calendar month with linear index `m`
(`start.replace(day=1)` / a `freq="MS"` point of `pd.date_range`). -/
def firstDayOfMonth (m : ℕ) : Date := ⟨m / 12, m % 12 + 1, 1⟩

/-- Last day of the calendar month with linear index `m`
(`month_start + pd.offsets.MonthEnd(0)`). -/
def lastDayOfMonth (m : ℕ) : Date :=
  ⟨m / 12, m % 12 + 1, daysInMonth (m / 12) (m % 12 + 1)⟩

/-- The day after `d` (used to state the no-gap/no-overlap property). -/
def Date.nextDay (d : Date) : Date :=
  if d.day < daysInMonth d.year d.month then ⟨d.year, d.month, d.day + 1⟩
  else if d.month < 12 then ⟨d.year, d.month + 1, 1⟩
  else ⟨d.year + 1, 1, 1⟩

/-- The date-interval core of `split_event_by_month`
(`utils/emdat_toolbox.py` lines 213–234): for present start/end dates,
`pd.date_range(start.replace(day=1), end, freq="MS")` enumerates the month
starts of the months `start.mIdx, …, end.mIdx` (for `start ≤ end`), and
each row's interval is
`[max(start, month_start), min(end, month_end)]`. -/
def split_event_by_month (start end_ : Date) : List (Date × Date) :=
  (List.range (end_.mIdx + 1 - start.mIdx)).map fun i =>
    let m := start.mIdx + i
    (dmax start (firstDayOfMonth m), dmin end_ (lastDayOfMonth m))

lemma daysInMonth_bounds (y m : ℕ) :
    28 ≤ daysInMonth y m ∧ daysInMonth y m ≤ 31 := by
  unfold daysInMonth
  split_ifs <;> omega

lemma enc_firstDay (m : ℕ) : (firstDayOfMonth m).enc = m * 32 + 1 := by
  unfold firstDayOfMonth Date.enc Date.mIdx
  simp only
  omega

lemma enc_lastDay (m : ℕ) :
    (lastDayOfMonth m).enc = m * 32 + daysInMonth (m / 12) (m % 12 + 1) := by
  unfold lastDayOfMonth Date.enc Date.mIdx
  simp only
  omega

lemma enc_eq (d : Date) : d.enc = d.year * 12 * 32 + (d.month - 1) * 32 + d.day := by
  unfold Date.enc Date.mIdx
  ring

lemma enc_dmax (a b : Date) : (dmax a b).enc = max a.enc b.enc := by
  unfold dmax
  split_ifs <;> omega

lemma enc_dmin (a b : Date) : (dmin a b).enc = min a.enc b.enc := by
  unfold dmin
  split_ifs <;> omega

lemma dmax_eq_left (a b : Date) (h : b.enc ≤ a.enc) : dmax a b = a := by
  unfold dmax
  rw [if_neg (not_lt.2 h)]

lemma dmax_eq_right (a b : Date) (h : a.enc < b.enc) : dmax a b = b := by
  unfold dmax
  rw [if_pos h]

lemma dmin_eq_left (a b : Date) (h : a.enc ≤ b.enc) : dmin a b = a := by
  unfold dmin
  rw [if_neg (not_lt.2 h)]

lemma dmin_eq_right (a b : Date) (h : b.enc < a.enc) : dmin a b = b := by
  unfold dmin
  rw [if_pos h]

lemma mIdx_div (d : Date) (hd : d.Valid) : d.mIdx / 12 = d.year := by
  obtain ⟨h1, h2, -, -⟩ := hd
  unfold Date.mIdx
  omega

lemma mIdx_mod (d : Date) (hd : d.Valid) : d.mIdx % 12 + 1 = d.month := by
  obtain ⟨h1, h2, -, -⟩ := hd
  unfold Date.mIdx
  omega

lemma mIdx_firstDay (m : ℕ) : (firstDayOfMonth m).mIdx = m := by
  unfold firstDayOfMonth Date.mIdx
  simp only
  omega

lemma mIdx_lastDay (m : ℕ) : (lastDayOfMonth m).mIdx = m := by
  unfold lastDayOfMonth Date.mIdx
  simp only
  omega

/-- For a valid date, the last day of its own month. -/
lemma lastDay_own (d : Date) (hd : d.Valid) :
    lastDayOfMonth d.mIdx = ⟨d.year, d.month, daysInMonth d.year d.month⟩ := by
  unfold lastDayOfMonth
  rw [mIdx_div d hd, mIdx_mod d hd]

lemma firstDay_own (d : Date) (hd : d.Valid) :
    firstDayOfMonth d.mIdx = ⟨d.year, d.month, 1⟩ := by
  unfold firstDayOfMonth
  rw [mIdx_div d hd, mIdx_mod d hd]

lemma enc_range (d : Date) (hd : d.Valid) :
    d.mIdx * 32 + 1 ≤ d.enc ∧ d.enc ≤ d.mIdx * 32 + 31 := by
  obtain ⟨-, -, h3, h4⟩ := hd
  have := daysInMonth_bounds d.year d.month
  unfold Date.enc
  omega

lemma nextDay_lastDay (m : ℕ) :
    (lastDayOfMonth m).nextDay = firstDayOfMonth (m + 1) := by
  unfold lastDayOfMonth Date.nextDay firstDayOfMonth
  simp only [lt_self_iff_false, if_false]
  split_ifs with h <;>
    (simp only [Date.mk.injEq]; refine ⟨by omega, by omega, trivial⟩)

lemma split_length (start end_ : Date) :
    (split_event_by_month start end_).length = end_.mIdx + 1 - start.mIdx := by
  simp [split_event_by_month]

lemma split_get (start end_ : Date) (i : ℕ)
    (h : i < (split_event_by_month start end_).length) :
    (split_event_by_month start end_).get ⟨i, h⟩
      = (dmax start (firstDayOfMonth (start.mIdx + i)),
         dmin end_ (lastDayOfMonth (start.mIdx + i))) := by
  simp [split_event_by_month]

/-- `max(start, month_start)` resolves to `start` exactly in the event's
first month. -/
lemma split_fst_resolved (start : Date) (hs : start.Valid) (i : ℕ) :
    dmax start (firstDayOfMonth (start.mIdx + i))
      = if i = 0 then start else firstDayOfMonth (start.mIdx + i) := by
  have h1 := enc_range start hs
  rcases Nat.eq_zero_or_pos i with rfl | hi
  · rw [if_pos rfl, dmax_eq_left]
    rw [enc_firstDay]
    omega
  · rw [if_neg hi.ne', dmax_eq_right]
    rw [enc_firstDay]
    omega

/-- `min(end, month_end)` resolves to `end` exactly in the event's last
month. -/
lemma split_snd_resolved (start end_ : Date) (he : end_.Valid) (i : ℕ)
    (hle : start.mIdx + i ≤ end_.mIdx) :
    dmin end_ (lastDayOfMonth (start.mIdx + i))
      = if start.mIdx + i = end_.mIdx then end_
        else lastDayOfMonth (start.mIdx + i) := by
  rcases eq_or_lt_of_le hle with heq | hlt
  · rw [if_pos heq, heq]
    apply dmin_eq_left
    rw [lastDay_own end_ he]
    have h4 := he.2.2.2
    unfold Date.enc Date.mIdx
    simp only
    omega
  · rw [if_neg hlt.ne, dmin_eq_right]
    have h2 := enc_range end_ he
    rw [enc_lastDay]
    have hd := daysInMonth_bounds ((start.mIdx + i) / 12) ((start.mIdx + i) % 12 + 1)
    omega

/-- C3: for present, ordered start/end dates, `split_event_by_month`
produces one row per calendar month intersecting `[start, end]`, each row
clamped to `[max(start, first day of M), min(end, last day of M)]`; the
intervals tile `[start, end]` with no gaps and no overlaps (the first row
starts at `start`, the last ends at `end`, consecutive rows abut
day-to-day), every interval is nonempty, each lies inside its own month,
and the rows are strictly sorted by start date. -/
theorem split_event_by_month_tiling (start end_ : Date)
    (hs : start.Valid) (he : end_.Valid) (hle : start.enc ≤ end_.enc) :
    (split_event_by_month start end_).length = end_.mIdx + 1 - start.mIdx ∧
    (∀ m : ℕ, (start.mIdx ≤ m ∧ m ≤ end_.mIdx) ↔
      ∃ i < (split_event_by_month start end_).length, start.mIdx + i = m) ∧
    (∀ i, ∀ h : i < (split_event_by_month start end_).length,
      (split_event_by_month start end_).get ⟨i, h⟩
        = (dmax start (firstDayOfMonth (start.mIdx + i)),
           dmin end_ (lastDayOfMonth (start.mIdx + i))) ∧
      (((split_event_by_month start end_).get ⟨i, h⟩).1).mIdx = start.mIdx + i ∧
      (((split_event_by_month start end_).get ⟨i, h⟩).2).mIdx = start.mIdx + i ∧
      (((split_event_by_month start end_).get ⟨i, h⟩).1).enc
        ≤ (((split_event_by_month start end_).get ⟨i, h⟩).2).enc) ∧
    (∀ h0 : 0 < (split_event_by_month start end_).length,
      ((split_event_by_month start end_).get ⟨0, h0⟩).1 = start) ∧
    (∀ h0 : 0 < (split_event_by_month start end_).length,
      ((split_event_by_month start end_).get
        ⟨(split_event_by_month start end_).length - 1, by omega⟩).2 = end_) ∧
    (∀ i, ∀ h : i + 1 < (split_event_by_month start end_).length,
      (((split_event_by_month start end_).get ⟨i, by omega⟩).2).nextDay
        = ((split_event_by_month start end_).get ⟨i + 1, h⟩).1) ∧
    (∀ i j, ∀ hi : i < (split_event_by_month start end_).length,
      ∀ hj : j < (split_event_by_month start end_).length, i < j →
      (((split_event_by_month start end_).get ⟨i, hi⟩).1).enc
        < (((split_event_by_month start end_).get ⟨j, hj⟩).1).enc) := by
  have h1 := enc_range start hs
  have h2 := enc_range end_ he
  have hse : start.mIdx ≤ end_.mIdx := by omega
  have hlen := split_length start end_
  refine ⟨hlen, ?_, ?_, ?_, ?_, ?_, ?_⟩
  · intro m
    constructor
    · intro hm
      exact ⟨m - start.mIdx, by omega, by omega⟩
    · rintro ⟨i, hi, rfl⟩
      rw [hlen] at hi
      omega
  · intro i h
    have hi : start.mIdx + i ≤ end_.mIdx := by
      rw [hlen] at h
      omega
    refine ⟨split_get start end_ i h, ?_, ?_, ?_⟩ <;>
      rw [split_get start end_ i h]
    · simp only [split_fst_resolved start hs i]
      split_ifs with h0
      · omega
      · rw [mIdx_firstDay]
    · simp only [split_snd_resolved start end_ he i hi]
      split_ifs with h0
      · omega
      · rw [mIdx_lastDay]
    · simp only
      rw [split_fst_resolved start hs i, split_snd_resolved start end_ he i hi]
      split_ifs with ha hb hb
      · subst ha
        exact hle
      · subst ha
        rw [Nat.add_zero, lastDay_own start hs]
        have h4 := hs.2.2.2
        unfold Date.enc Date.mIdx
        simp only
        omega
      · rw [enc_firstDay]
        omega
      · rw [enc_firstDay, enc_lastDay]
        have hd := daysInMonth_bounds ((start.mIdx + i) / 12) ((start.mIdx + i) % 12 + 1)
        omega
  · intro h0
    rw [split_get start end_ 0 h0]
    simp only
    rw [split_fst_resolved start hs 0, if_pos rfl]
  · intro h0
    have h0' : 0 < end_.mIdx + 1 - start.mIdx := by
      rw [← hlen]
      exact h0
    have hlast : (split_event_by_month start end_).length - 1
        < (split_event_by_month start end_).length := by omega
    rw [split_get start end_ _ hlast]
    simp only
    rw [hlen, split_snd_resolved start end_ he _ (by omega),
      if_pos (by omega)]
  · intro i h
    have hi : start.mIdx + i < end_.mIdx := by
      rw [hlen] at h
      omega
    rw [split_get start end_ i (by omega), split_get start end_ (i + 1) h]
    simp only
    rw [split_snd_resolved start end_ he i (by omega), if_neg (by omega),
      split_fst_resolved start hs (i + 1), if_neg (by omega),
      nextDay_lastDay, ← Nat.add_assoc]
  · intro i j hi hj hij
    rw [split_get start end_ i hi, split_get start end_ j hj]
    simp only
    rw [split_fst_resolved start hs i, split_fst_resolved start hs j,
      if_neg (show ¬ j = 0 by omega)]
    split_ifs with h0
    · rw [enc_firstDay]
      omega
    · rw [enc_firstDay, enc_firstDay]
      omega

/-- Witness for `split_event_by_month_tiling`: the spec's scenario
2015-01-20 → 2015-02-05 yields exactly 2 monthly rows. -/
theorem split_event_by_month_tiling_witness :
    (split_event_by_month ⟨2015, 1, 20⟩ ⟨2015, 2, 5⟩).length = 2 := by
  have h := split_event_by_month_tiling ⟨2015, 1, 20⟩ ⟨2015, 2, 5⟩
    (by decide) (by decide) (by decide)
  rw [h.1]
  rfl

/-! ## Composite key `mon-yr-adm1-id`
(`split_event_by_month` + `append_adm1_code_to_id`) -/

/-- Zero-padded two-digit rendering (`strftime("%m")`). -/
def pad2 (n : ℕ) : String := if n < 10 then "0" ++ toString n else toString n

/-- One disaggregated MonthlyEvent row with its identifier columns:
`mon-yr` (`month_start.strftime("%m-%Y")`) and the composite key
`mon-yr-adm1-id` built by `append_adm1_code_to_id` from
`mon-yr-id = f"{month_start.strftime('%m')}-{id}"` as
`f"{mon_yr_id}-{int(adm1_code)}"`. -/
structure MonthlyRow where
  startDate : Date
  endDate : Date
  monYr : String
  monYrAdm1Id : String
deriving Repr, DecidableEq

/-- The monthly rows of one AdminUnitEvent with present dates, as built in
`prepare_disagreggated_dataset.py`: `split_event_by_month`
(`emdat_toolbox.py` lines 213–234, including the `mon-yr` / `mon-yr-id`
columns of lines 229–231) followed by `append_adm1_code_to_id`
(lines 132–161).  Note `mon-yr-id` carries only the two-digit month
`strftime('%m')` — not the year. -/
def monthlyRows (id : String) (adm1code : ℤ) (start end_ : Date) :
    List MonthlyRow :=
  (List.range (end_.mIdx + 1 - start.mIdx)).map fun i =>
    let m := start.mIdx + i
    { startDate := dmax start (firstDayOfMonth m)
      endDate := dmin end_ (lastDayOfMonth m)
      monYr := pad2 (m % 12 + 1) ++ "-" ++ toString (m / 12)
      monYrAdm1Id := pad2 (m % 12 + 1) ++ "-" ++ id ++ "-" ++ toString adm1code }

/-- C6 fails on the code: an event spanning 13 calendar months (id
`"FL-01"`, `adm1_code = 100`, 2015-01-15 → 2016-01-10) yields two distinct
MonthlyEvent rows — its January 2015 and January 2016 slices — that carry
the *same* composite key `"01-FL-01-100"`, because `mon-yr-id` encodes the
month number without the year. -/
theorem monYrAdm1Id_not_unique :
    (monthlyRows "FL-01" 100 ⟨2015, 1, 15⟩ ⟨2016, 1, 10⟩).length = 13 ∧
    ((monthlyRows "FL-01" 100 ⟨2015, 1, 15⟩ ⟨2016, 1, 10⟩)[0]?).map
      (·.monYrAdm1Id) = some "01-FL-01-100" ∧
    ((monthlyRows "FL-01" 100 ⟨2015, 1, 15⟩ ⟨2016, 1, 10⟩)[12]?).map
      (·.monYrAdm1Id) = some "01-FL-01-100" ∧
    (monthlyRows "FL-01" 100 ⟨2015, 1, 15⟩ ⟨2016, 1, 10⟩)[0]?
      ≠ (monthlyRows "FL-01" 100 ⟨2015, 1, 15⟩ ⟨2016, 1, 10⟩)[12]? := by
  refine ⟨by decide, by decide, by decide, by decide⟩

/-! ## Flag strings (`add_data_flags.py`)

Python string primitives (`str.split`, `str.strip`, `int(...)`) are
embedded structurally on `List Char` so that everything reduces in the
kernel. -/

/-- Python `flag_str.split(";")`. -/
def splitOnSemicolon : List Char → List (List Char)
  | [] => [[]]
  | c :: rest =>
    let r := splitOnSemicolon rest
    if c = ';' then [] :: r
    else
      match r with
      | t :: ts => (c :: t) :: ts
      | [] => [[c]]

/-- Python `str.strip()`: drop whitespace at both ends. -/
def stripChars (s : List Char) : List Char :=
  ((s.dropWhile Char.isWhitespace).reverse.dropWhile Char.isWhitespace).reverse

def parseDigitsAux : List Char → ℕ → Option ℕ
  | [], acc => some acc
  | c :: rest, acc =>
    if c.isDigit then parseDigitsAux rest (acc * 10 + (c.toNat - '0'.toNat))
    else none

/-- Python `int(token)`: optional surrounding whitespace, optional sign,
decimal digits; `none` models the `ValueError` raised otherwise. -/
def parseIntToken (s : List Char) : Option ℤ :=
  match stripChars s with
  | [] => none
  | '-' :: ds => if ds.isEmpty then none
      else (parseDigitsAux ds 0).map (fun n => -(n : ℤ))
  | '+' :: ds => if ds.isEmpty then none
      else (parseDigitsAux ds 0).map (fun n => (n : ℤ))
  | ds => (parseDigitsAux ds 0).map (fun n => (n : ℤ))

/-- `[int(f) for f in flag_str.split(";") if f.strip()]`: `none` models
the `ValueError` that `int(f)` raises on a non-numeric token. -/
def parseFlagTokens (s : String) : Option (List ℤ) :=
  ((splitOnSemicolon s.data).filter
    (fun t => !(stripChars t).isEmpty)).mapM parseIntToken

/-- `sort_flags` from `add_data_flags.py` (lines 93–112):

    if not flag_str: return ""
    nums = [int(f) for f in flag_str.split(";") if f.strip()]
    return "; ".join(map(str, sorted(nums)))

(`sorted` is embedded as insertion sort: on integers every correct sort
returns the same list). -/
def sort_flags (flag_str : String) : Option String :=
  if flag_str = "" then some ""
  else
    match parseFlagTokens flag_str with
    | none => none
    | some nums =>
      some ("; ".intercalate ((List.insertionSort (· ≤ ·) nums).map toString))

/-- `flags_df["flags"].str.lstrip("; ")` from `main` (line 232): strip any
leading `';'` / `' '` characters. -/
def lstripSemiSpace (s : String) : String :=
  ⟨s.data.dropWhile (fun c => c = ';' || c = ' ')⟩

/-- The flag-rendering step of `main` (lines 228–232): `sort_flags`
followed by stripping the leading separator. -/
def renderFlags (s : String) : Option String := (sort_flags s).map lstripSemiSpace

example : renderFlags "12; 2; 1" = some "1; 2; 12" := by decide
example : renderFlags "" = some "" := by decide

lemma digitChar_isDigit (m : ℕ) (h : m < 10) :
    (Nat.digitChar m).isDigit = true := by
  interval_cases m <;> decide

lemma toDigitsCore_all_digits (fuel n : ℕ) (ds : List Char)
    (hds : ∀ c ∈ ds, c.isDigit = true) :
    ∀ c ∈ Nat.toDigitsCore 10 fuel n ds, c.isDigit = true := by
  induction fuel generalizing n ds with
  | zero => exact hds
  | succ f ih =>
    intro c hc
    unfold Nat.toDigitsCore at hc
    dsimp only at hc
    split at hc
    · rcases List.mem_cons.1 hc with rfl | hmem
      · exact digitChar_isDigit _ (Nat.mod_lt _ (by omega))
      · exact hds c hmem
    · refine ih _ _ ?_ c hc
      intro c' hc'
      rcases List.mem_cons.1 hc' with rfl | hmem
      · exact digitChar_isDigit _ (Nat.mod_lt _ (by omega))
      · exact hds c' hmem

lemma toDigitsCore_ne_nil (fuel n : ℕ) (ds : List Char) (hds : ds ≠ [] ∨ 0 < fuel) :
    Nat.toDigitsCore 10 fuel n ds ≠ [] := by
  induction fuel generalizing n ds with
  | zero =>
    rcases hds with h | h
    · exact h
    · omega
  | succ f ih =>
    unfold Nat.toDigitsCore
    dsimp only
    split
    · exact List.cons_ne_nil _ _
    · exact ih _ _ (Or.inl (List.cons_ne_nil _ _))

/-- `str(n)` for a nonnegative integer starts with a decimal digit. -/
lemma intToString_head_digit (n : ℤ) (hn : 0 ≤ n) :
    ∃ c cs, (toString n).data = c :: cs ∧ c.isDigit = true := by
  obtain ⟨m, rfl⟩ := Int.eq_ofNat_of_zero_le hn
  show ∃ c cs, (Int.repr (Int.ofNat m)).data = c :: cs ∧ c.isDigit = true
  unfold Int.repr
  simp only
  unfold Nat.repr
  cases hd : Nat.toDigits 10 m with
  | nil => exact absurd hd (toDigitsCore_ne_nil _ _ _ (Or.inr (by omega)))
  | cons c cs =>
    refine ⟨c, cs, rfl, ?_⟩
    have := toDigitsCore_all_digits (m + 1) m [] (by simp)
    rw [show Nat.toDigitsCore 10 (m + 1) m [] = Nat.toDigits 10 m from rfl, hd] at this
    exact this c (List.mem_cons_self _ _)

/-- `String.intercalate` on a nonempty list starts with the first
string's characters. -/
lemma intercalate_data_cons (sep a : String) (as : List String) :
    ∃ rest, (String.intercalate sep (a :: as)).data = a.data ++ rest := by
  show ∃ rest, (String.intercalate.go a sep as).data = a.data ++ rest
  induction as generalizing a with
  | nil => exact ⟨[], by simp [String.intercalate.go]⟩
  | cons b bs ih =>
    obtain ⟨rest, hrest⟩ := ih (a ++ sep ++ b)
    refine ⟨sep.data ++ b.data ++ rest, ?_⟩
    rw [String.intercalate.go, hrest]
    simp [String.data_append]

lemma lstrip_of_digit_head (s : String)
    (h : ∀ c cs, s.data = c :: cs → c.isDigit = true) :
    lstripSemiSpace s = s := by
  unfold lstripSemiSpace
  cases hs : s.data with
  | nil => rw [List.dropWhile_nil]; exact congrArg String.mk hs.symm
  | cons c cs =>
    have hc := h c cs hs
    have hpred : (decide (c = ';') || decide (c = ' ')) = false := by
      cases hb : (decide (c = ';') || decide (c = ' ')) with
      | false => rfl
      | true =>
        rw [Bool.or_eq_true, decide_eq_true_eq, decide_eq_true_eq] at hb
        rcases hb with rfl | rfl <;> exact absurd hc (by decide)
    rw [List.dropWhile_cons, hpred]
    simp only [Bool.false_eq_true, if_false]
    exact congrArg String.mk hs.symm

/-- C4 (amended): for every non-empty flag string whose semicolon-separated
tokens parse as (nonnegative) integers, the flag-rendering step returns the
codes sorted ascending as integers, **duplicates preserved** (the code
never deduplicates), joined by `"; "`, and the final
`lstrip("; ")` strips nothing because the output starts with a digit. -/
theorem sort_flags_render (s : String) (nums : List ℤ)
    (hne : s ≠ "")
    (h : parseFlagTokens s = some nums)
    (hnn : ∀ n ∈ nums, 0 ≤ n) :
    ∃ sortedNums : List ℤ,
      sortedNums.Perm nums ∧
      sortedNums.Sorted (· ≤ ·) ∧
      sort_flags s = some ("; ".intercalate (sortedNums.map toString)) ∧
      renderFlags s = sort_flags s := by
  have hout : sort_flags s
      = some ("; ".intercalate ((List.insertionSort (· ≤ ·) nums).map toString)) := by
    unfold sort_flags
    rw [if_neg hne, h]
  refine ⟨List.insertionSort (· ≤ ·) nums, List.perm_insertionSort _ _,
    List.sorted_insertionSort _ _, hout, ?_⟩
  have hlid : lstripSemiSpace
      ("; ".intercalate ((List.insertionSort (· ≤ ·) nums).map toString))
      = "; ".intercalate ((List.insertionSort (· ≤ ·) nums).map toString) := by
    apply lstrip_of_digit_head
    intro c cs hdata
    cases hsorted : List.insertionSort (· ≤ ·) nums with
    | nil =>
      rw [hsorted, List.map_nil] at hdata
      simp [String.intercalate] at hdata
    | cons n ns =>
      rw [hsorted, List.map_cons] at hdata
      obtain ⟨rest, hrest⟩ := intercalate_data_cons "; " (toString n) (ns.map toString)
      have hmem : n ∈ List.insertionSort (· ≤ ·) nums :=
        hsorted ▸ List.mem_cons_self n ns
      have hn0 : 0 ≤ n :=
        hnn n ((List.perm_insertionSort (· ≤ ·) nums).mem_iff.1 hmem)
      obtain ⟨c', cs', hTS, hdig⟩ := intToString_head_digit n hn0
      have hcc : c' :: (cs' ++ rest) = c :: cs := by
        rw [← hdata, hrest, hTS, List.cons_append]
      obtain rfl := (List.cons.inj hcc).1
      exact hdig
  unfold renderFlags
  rw [hout]
  simp only [Option.map]
  rw [hlid]

/-- C4 as stated is false at its own example: the flag-rendering step does
not deduplicate, so `"12; 2; 1; 2"` yields `"1; 2; 2; 12"`, not
`"1; 2; 12"`. -/
theorem sort_flags_no_dedup_cex :
    renderFlags "12; 2; 1; 2" = some "1; 2; 2; 12" ∧
    renderFlags "12; 2; 1; 2" ≠ some "1; 2; 12" := by
  constructor <;> decide

/-- Witness for `sort_flags_render` at `"12; 2; 1"` (no duplicates, so the
sorted output is `"1; 2; 12"`). -/
theorem sort_flags_render_witness : renderFlags "12; 2; 1" = some "1; 2; 12" := by
  obtain ⟨sortedNums, hperm, hsort, hout, hren⟩ :=
    sort_flags_render "12; 2; 1" [12, 2, 1] (by decide) (by decide) (by decide)
  have hs : sortedNums = [1, 2, 12] :=
    List.eq_of_perm_of_sorted (hperm.trans (by decide)) hsort (by decide)
  rw [hren, hout, hs]
  decide

/-- Python `substring in s` / pandas `str.contains(..., regex=False)`:
`pat` occurs at some position of `s`. -/
def strContains (s pat : String) : Bool :=
  (List.range (s.data.length + 1)).any fun i => pat.data.isPrefixOf (s.data.drop i)

/-- The text before a match satisfies `(?:^|;\s*)`: empty, or a `';'`
followed only by whitespace. -/
def boundaryBefore (l : List Char) : Bool :=
  l.isEmpty || ((l.reverse.dropWhile Char.isWhitespace).head? == some ';')

/-- The text after a match satisfies `(?:$|;\s*)`: empty or starting with
`';'`. -/
def boundaryAfter (r : List Char) : Bool :=
  r.isEmpty || (r.head? == some ';')

/-- `str.contains(regex(flag))` where
`regex(flag) = rf"(?:^|;\s*){flag}(?:$|;\s*)"`
(`add_data_flags.py` lines 30–34): the decimal rendering of `n` occurs
with a `^`/`; `-boundary before it and a `$`/`;`-boundary after it. -/
def hasFlagToken (s : String) (n : ℕ) : Bool :=
  let cs := s.data
  let pat := (toString n).data
  (List.range (cs.length + 1)).any fun i =>
    pat.isPrefixOf (cs.drop i) && boundaryBefore (cs.take i)
      && boundaryAfter ((cs.drop i).drop pat.length)

/-- `flooded_area == 0` elementwise (NaN compares `False`). -/
def areaEqZero : NVal → Bool
  | some a => decide (a = 0)
  | none => false

/-- The source condition columns that `main` of `add_data_flags.py` reads
when recomputing the `flags` column of a row, plus the `flags` column
itself. -/
structure FlagSourceRow where
  data_processing_flags : String
  metrics_error : String
  startDate : Option Date
  flooded_area : NVal
  flags : String
deriving Repr, DecidableEq

/-- Mask of flag 3: `Start Date < 2000-02-25` (`NaT` compares `False`). -/
def mask3 (r : FlagSourceRow) : Bool :=
  match r.startDate with
  | some d => d.enc < (Date.mk 2000 2 25).enc
  | none => false

/-- The flag accumulation of `main` (`add_data_flags.py` lines 146–224):
starting from `flags = ""`, each mask is computed from the source
condition columns (never from existing flags) and appends its code, in
source order 1, 2, 7, 8, 13, 14, 15, 5, 6, 3, 4, 12. -/
def rawFlags (r : FlagSourceRow) : String :=
  let f := ""
  let f := if strContains r.data_processing_flags "Start day originally NaN"
    then f ++ "; 1" else f
  let f := if strContains r.data_processing_flags "End day originally NaN"
    then f ++ "; 2" else f
  let f := if hasFlagToken r.data_processing_flags 7 then f ++ "; 7" else f
  let f := if hasFlagToken r.data_processing_flags 8 then f ++ "; 8" else f
  let f := if hasFlagToken r.data_processing_flags 13 then f ++ "; 13" else f
  let f := if hasFlagToken r.data_processing_flags 14 then f ++ "; 14" else f
  let f := if hasFlagToken r.data_processing_flags 15 then f ++ "; 15" else f
  let f := if strContains r.metrics_error "data/GPW_by_adm1/"
      && strContains r.metrics_error "FileNotFound" then f ++ "; 5" else f
  let f := if strContains r.metrics_error "ValueError"
      && strContains r.metrics_error "Coordinate"
      && strContains r.metrics_error "has mismatched shapes" then f ++ "; 6" else f
  let f := if mask3 r then f ++ "; 3" else f
  let f := if strContains r.metrics_error "RasterioIOError"
      && strContains r.metrics_error ".tif: No such file or directory"
      && !(mask3 r) then f ++ "; 4" else f
  let f := if areaEqZero r.flooded_area then f ++ "; 12" else f
  f

/-- The per-row flag column `main` computes: accumulate the mask codes,
then `sort_flags` and `lstrip("; ")`. -/
def computeFlags (r : FlagSourceRow) : Option String := renderFlags (rawFlags r)

/-- One row of the flag-assignment procedure: recompute `flags` from the
source condition columns and overwrite the column. -/
def assignFlags (r : FlagSourceRow) : Option FlagSourceRow :=
  (computeFlags r).map (fun f => { r with flags := f })

example : strContains "Start day originally NaN; 14" "Start day originally NaN" = true := by decide
example : hasFlagToken "Start day originally NaN; 14" 14 = true := by decide
example : hasFlagToken "Start day originally NaN; 14" 7 = false := by decide
example : mask3 { data_processing_flags := "", metrics_error := "", startDate := some ⟨2015, 3, 1⟩, flooded_area := some 0, flags := "" } = false := by decide
example : rawFlags { data_processing_flags := "Start day originally NaN; 14", metrics_error := "", startDate := some ⟨2015, 3, 1⟩, flooded_area := some 0, flags := "" } = "; 1; 14; 12" := by decide
example : computeFlags { data_processing_flags := "Start day originally NaN; 14", metrics_error := "", startDate := some ⟨2015, 3, 1⟩, flooded_area := some 0, flags := "" } = some "1; 12; 14" := by decide

/-- C5: the flag-assignment procedure is idempotent — every mask is
recomputed from the source condition columns and the `flags` column is
rebuilt from scratch, so applying the procedure to a row it has already
flagged reproduces that row exactly. -/
theorem flag_assignment_idempotent (r r' : FlagSourceRow)
    (h : assignFlags r = some r') : assignFlags r' = some r' := by
  unfold assignFlags at h ⊢
  cases hc : computeFlags r with
  | none =>
    rw [hc] at h
    exact absurd h (by simp)
  | some f =>
    rw [hc] at h
    simp only [Option.map] at h
    have hr' : r' = { r with flags := f } := (Option.some.inj h).symm
    subst hr'
    have hcf : computeFlags { r with flags := f } = computeFlags r := rfl
    rw [hcf, hc]
    rfl

/-- A concrete already-flagged row (inferred start day, allocation flag 14
in the processing log, zero flooded area). -/
def flagWitnessRow : FlagSourceRow :=
  { data_processing_flags := "Start day originally NaN; 14"
    metrics_error := ""
    startDate := some ⟨2015, 3, 1⟩
    flooded_area := some 0
    flags := "" }

/-- Witness for `flag_assignment_idempotent`: re-flagging the already
flagged concrete row reproduces it. -/
theorem flag_assignment_idempotent_witness :
    assignFlags { data_processing_flags := "Start day originally NaN; 14",
                  metrics_error := "", startDate := some ⟨2015, 3, 1⟩,
                  flooded_area := some 0, flags := "1; 12; 14" }
      = some { data_processing_flags := "Start day originally NaN; 14",
               metrics_error := "", startDate := some ⟨2015, 3, 1⟩,
               flooded_area := some 0, flags := "1; 12; 14" } :=
  flag_assignment_idempotent flagWitnessRow _ (by decide)

/-- The flag block of `get_missing_rows` (`add_data_flags.py` lines
72–82): starting from `flags = ""`, append `"; 9"` when Start or End Date
is missing, `"; 10"` when Admin Units is missing, and `"; 11"` when the
flags string is still empty. -/
def missingRowFlags (startMissing endMissing adminMissing : Bool) : String :=
  let f := ""
  let f := if startMissing || endMissing then f ++ "; 9" else f
  let f := if adminMissing then f ++ "; 10" else f
  let f := if f = "" then f ++ "; 11" else f
  f

/-- C10: on recovered registry rows, flag 11 is assigned iff neither
flag 9 (missing Start/End Date) nor flag 10 (missing Admin Units) is, so
flag 11 never co-occurs with flag 9 or flag 10. -/
theorem flag11_iff_no_flag9_flag10 (s e a : Bool) :
    (hasFlagToken (missingRowFlags s e a) 11 = true
      ↔ ((s || e) = false ∧ a = false)) ∧
    (hasFlagToken (missingRowFlags s e a) 9 = true ↔ (s || e) = true) ∧
    (hasFlagToken (missingRowFlags s e a) 10 = true ↔ a = true) ∧
    ¬(hasFlagToken (missingRowFlags s e a) 11 = true ∧
      (hasFlagToken (missingRowFlags s e a) 9 = true ∨
       hasFlagToken (missingRowFlags s e a) 10 = true)) := by
  cases s <;> cases e <;> cases a <;>
    exact ⟨by decide, by decide, by decide, by decide⟩

/-! ## Normalization (`add_normalized_impacts.py`, `utils_misc.py`) -/

/-- pandas `.item()` on a filtered selection: the scalar if exactly one
row matched, otherwise the `ValueError` it raises. -/
def seriesItem {α : Type} (xs : List α) : Except String α :=
  match xs with
  | [x] => .ok x
  | _ => .error "can only convert an array of size 1 to a Python scalar"

/-- `map_years_to_gpw_intervals` (`utils_misc.py` lines 11–21): the dict
`{year: year - (year % 5) for year in range(2000, 2025)}`; `none` models
the `KeyError` a lookup outside 2000–2024 raises. -/
def map_years_to_gpw_intervals (year : ℤ) : Option ℤ :=
  if 2000 ≤ year ∧ year < 2025 then some (year - year % 5) else none

/-- `int(mon_yr[-4:])`: parse the last four characters of the `mon-yr`
string ("MM-YYYY"); `none` models the `ValueError`. -/
def yearFromMonYr (s : String) : Option ℤ :=
  parseIntToken (s.data.reverse.take 4).reverse

/-- One event row as read by the three normalization functions.  The raw
aggregate columns (`"Total Affected"`, `"Total Damage, Adjusted
('000 US$)"`) and the allocated `"… (population-weighted)"` columns are
both present in the cleaned events file; the code reads the raw ones. -/
structure NormRow where
  monYr : Option String
  adm1_code : Option ℤ
  totalAffected : NVal
  totalAffectedPW : NVal
  totalDamage : NVal
  flooded_area : NVal
deriving Repr, DecidableEq

/-- One row of the GPW reference table: area and the
`f"{year}_total_pop_count"` columns. -/
structure GpwEntry where
  adm1_code : ℤ
  totalPop : ℤ → NVal
  area_km2 : NVal

/-- One row of the (country-mean-filled) GDP table with its `gdp_{year}`
columns, present for years 1990–2024. -/
structure GdpEntry where
  adm1_code : ℤ
  gdp : ℤ → NVal

/-- `ppl_affected_normalized` (`add_normalized_impacts.py` lines 89–122):
NaN when `mon-yr` / `adm1_code` / `Total Affected` is missing, otherwise
`row["Total Affected"] / pop_count(gpw_year, adm1) * 100` — note the
numerator is the raw `"Total Affected"` column, not the allocated
`"Total Affected (population-weighted)"` one.  `.error` models the
exceptions the source raises (`KeyError` on a year outside the dict,
`ValueError` from `.item()` on an unmatched `adm1_code`). -/
def ppl_affected_normalized (row : NormRow) (pop_yr_dict : ℤ → Option ℤ)
    (gpw_df : List GpwEntry) : Except String NVal :=
  match row.monYr, row.adm1_code, row.totalAffected with
  | some monYr, some adm1, some people =>
    match yearFromMonYr monYr with
    | none => .error "invalid literal for int()"
    | some year =>
      match pop_yr_dict year with
      | none => .error "KeyError"
      | some gpwYear =>
        match seriesItem ((gpw_df.filter (fun e => e.adm1_code = adm1)).map
            (fun e => e.totalPop gpwYear)) with
        | .error msg => .error msg
        | .ok pop => .ok (nmul (ndiv (some people) pop) (some 100))
  | _, _, _ => .ok none

/-- `damages_gdp_standardized` (lines 53–86): NaN when `mon-yr` /
`adm1_code` / damages is missing, otherwise
`damages / gdp_{year}(adm1) * 100` (raw damages column; a year without a
`gdp_{year}` column or an unmatched `adm1_code` raises). -/
def damages_gdp_standardized (row : NormRow) (gdp_df : List GdpEntry) :
    Except String NVal :=
  match row.monYr, row.adm1_code, row.totalDamage with
  | some monYr, some adm1, some damages =>
    match yearFromMonYr monYr with
    | none => .error "invalid literal for int()"
    | some year =>
      if year < 1990 ∨ 2024 < year then .error "KeyError"
      else
        match seriesItem ((gdp_df.filter (fun e => e.adm1_code = adm1)).map
            (fun e => e.gdp year)) with
        | .error msg => .error msg
        | .ok g => .ok (nmul (ndiv (some damages) g) (some 100))
  | _, _, _ => .ok none

/-- `flooded_area_normalized` (lines 125–151): NaN when `adm1_code` /
`flooded_area` is missing, otherwise `flooded_area / area_km2 * 100`. -/
def flooded_area_normalized (row : NormRow) (gpw_df : List GpwEntry) :
    Except String NVal :=
  match row.adm1_code, row.flooded_area with
  | some adm1, some fa =>
    match seriesItem ((gpw_df.filter (fun e => e.adm1_code = adm1)).map
        (fun e => e.area_km2)) with
    | .error msg => .error msg
    | .ok area => .ok (nmul (ndiv (some fa) area) (some 100))
  | _, _ => .ok none

/-- A MonthlyEvent row whose raw aggregate `Total Affected` (1000) differs
from its allocated `Total Affected (population-weighted)` share (500). -/
def c7Row : NormRow :=
  { monYr := some "03-2013", adm1_code := some 42,
    totalAffected := some 1000, totalAffectedPW := some 500,
    totalDamage := some 0, flooded_area := some 1 }

/-- GPW reference row for admin unit 42: 2000 residents in the 2010
census-grid year. -/
def c7Gpw : GpwEntry :=
  { adm1_code := 42
    totalPop := fun y => if y = 2010 then some 2000 else none
    area_km2 := some 10 }

/-- C7: the reference-year mapping (nearest multiple of 5 ≤ the event
year) and the ×100 scaling hold, but the numerator is the **raw**
aggregate `Total Affected` column, not the allocated
`(population-weighted)` value the claim (and the output column's own name,
`"Total Affected (population-weighted, normalized)"`) describe: on
`c7Row` the code returns `1000 / 2000 × 100 = 50`, not
`500 / 2000 × 100 = 25`. -/
theorem ppl_affected_normalized_raw_numerator :
    map_years_to_gpw_intervals 2013 = some 2010 ∧
    ((2010 : ℤ) % 5 = 0 ∧ (2010 : ℤ) ≤ 2013 ∧ (2013 : ℤ) < 2010 + 5) ∧
    ppl_affected_normalized c7Row map_years_to_gpw_intervals [c7Gpw]
      = .ok (some (1000 / 2000 * 100)) ∧
    (1000 / 2000 * 100 : ℚ) = 50 ∧
    c7Row.totalAffectedPW = some 500 ∧
    (500 / 2000 * 100 : ℚ) = 25 ∧
    ¬((50 : ℚ) = 25) := by
  have hy : yearFromMonYr "03-2013" = some 2013 := by decide
  have hd : map_years_to_gpw_intervals 2013 = some 2010 := by decide
  refine ⟨hd, by decide, ?_, by norm_num, by decide, by norm_num, by norm_num⟩
  simp [ppl_affected_normalized, c7Row, hy, hd, c7Gpw, seriesItem, nmul, ndiv]

/-- C8 (amended): each of the three per-row normalization functions
returns NaN — rather than raising — whenever the row's *own* `mon-yr`,
`adm1_code`, or numerator field is missing.  (An `adm1_code` or year
unmatched in the reference table, by contrast, raises: see the
counterexample.) -/
theorem normalization_missing_yields_nan (row : NormRow) (d : ℤ → Option ℤ)
    (gpw : List GpwEntry) (gdp : List GdpEntry) :
    ((row.monYr = none ∨ row.adm1_code = none ∨ row.totalAffected = none) →
      ppl_affected_normalized row d gpw = .ok none) ∧
    ((row.monYr = none ∨ row.adm1_code = none ∨ row.totalDamage = none) →
      damages_gdp_standardized row gdp = .ok none) ∧
    ((row.adm1_code = none ∨ row.flooded_area = none) →
      flooded_area_normalized row gpw = .ok none) := by
  refine ⟨?_, ?_, ?_⟩ <;> intro h
  · cases hm : row.monYr <;> cases ha : row.adm1_code <;>
      cases hta : row.totalAffected <;>
      simp [ppl_affected_normalized, hm, ha, hta] at h ⊢
  · cases hm : row.monYr <;> cases ha : row.adm1_code <;>
      cases htd : row.totalDamage <;>
      simp [damages_gdp_standardized, hm, ha, htd] at h ⊢
  · cases ha : row.adm1_code <;> cases hfa : row.flooded_area <;>
      simp [flooded_area_normalized, ha, hfa] at h ⊢

/-- Witness for `normalization_missing_yields_nan`: a row with missing
`mon-yr` yields NaN. -/
theorem normalization_missing_yields_nan_witness :
    ppl_affected_normalized
      { monYr := none, adm1_code := some 1, totalAffected := some 2,
        totalAffectedPW := some 2, totalDamage := some 3, flooded_area := some 4 }
      map_years_to_gpw_intervals [] = .ok none :=
  (normalization_missing_yields_nan
    { monYr := none, adm1_code := some 1, totalAffected := some 2,
      totalAffectedPW := some 2, totalDamage := some 3, flooded_area := some 4 }
    map_years_to_gpw_intervals [] []).1 (Or.inl rfl)

/-- A row whose fields are all present but whose `adm1_code` (999) has no
match in the reference table. -/
def c8Row : NormRow :=
  { monYr := some "01-2015", adm1_code := some 999,
    totalAffected := some 10, totalAffectedPW := some 10,
    totalDamage := some 7, flooded_area := some 1 }

/-- C8 as stated is false: an `adm1_code` unmatched in the reference table
makes `.item()` raise `ValueError` — the function does not return NaN, so
one bad row aborts the whole `apply` batch. -/
theorem normalization_unmatched_raises_cex :
    ppl_affected_normalized c8Row map_years_to_gpw_intervals []
      = .error "can only convert an array of size 1 to a Python scalar" ∧
    flooded_area_normalized c8Row []
      = .error "can only convert an array of size 1 to a Python scalar" ∧
    ppl_affected_normalized c8Row map_years_to_gpw_intervals [] ≠ .ok none := by
  have h1 : ppl_affected_normalized c8Row map_years_to_gpw_intervals []
      = .error "can only convert an array of size 1 to a Python scalar" := rfl
  have h2 : flooded_area_normalized c8Row []
      = .error "can only convert an array of size 1 to a Python scalar" := rfl
  refine ⟨h1, h2, ?_⟩
  rw [h1]
  intro h
  exact Except.noConfusion h

/-! ## Panel assembly (`prepare_panel_dataset.py`) -/

/-- One event row entering panel assembly (after dropping rows without
`mon-yr` and flag-9/10/11 rows): its grid cell and its normalized impact
columns `total_affected_normalized` / `damages_gdp_standardized`. -/
structure PanelEvent where
  adm1_code : ℤ
  monYr : String
  tan : NVal
  dgs : NVal
deriving Repr, DecidableEq

/-- pandas `Series.quantile(q)` with the default linear interpolation:
sort the non-NaN values `v₀ ≤ … ≤ vₙ₋₁`, set `h = q(n-1)`, and
interpolate between `v⌊h⌋` and `v⌊h⌋₊₁`; `none` on an all-NaN series. -/
def quantile (xs : List NVal) (q : ℚ) : Option ℚ :=
  let v := List.insertionSort (· ≤ ·) (xs.filterMap id)
  if v.isEmpty then none
  else
    let h : ℚ := q * ((v.length : ℚ) - 1)
    let i : ℕ := (⌊h⌋).toNat
    some (v.getD i 0 + (h - (i : ℚ)) * (v.getD (i + 1) (v.getD i 0) - v.getD i 0))

/-- numpy round-half-to-even to an integer. -/
def roundHalfEven (x : ℚ) : ℤ :=
  if x - ⌊x⌋ < 1/2 then ⌊x⌋
  else if 1/2 < x - ⌊x⌋ then ⌊x⌋ + 1
  else if ⌊x⌋ % 2 = 0 then ⌊x⌋ else ⌊x⌋ + 1

/-- `.quantile(q).round(5)`: the infill constant for one impact column. -/
def fillValue (xs : List NVal) (q : ℚ) : Option ℚ :=
  (quantile xs q).map (fun x => (roundHalfEven (x * 100000) : ℚ) / 100000)

/-- The 5th-percentile constant used to infill events with missing
`total_affected_normalized` (lines 77–81). -/
def tanEventFill (events : List PanelEvent) : Option ℚ :=
  fillValue (events.map (·.tan)) (5/100)

/-- The 2nd-percentile constant used to infill grid cells with no event
(lines 87–91). -/
def tanNoEventFill (events : List PanelEvent) : Option ℚ :=
  fillValue (events.map (·.tan)) (2/100)

/-- The events of one `(adm1_code, mon-yr)` grid cell. -/
def cellEvents (events : List PanelEvent) (a : ℤ) (m : String) : List PanelEvent :=
  events.filter (fun e => e.adm1_code = a && e.monYr = m)

/-- The panel value of `total_affected_normalized` and the
`event_occurrance` indicator for one grid cell: events are infilled at the
5th percentile (`fillna`, line 97), summed per cell (`groupby(...).agg sum`,
line 123) with `event_occurrance = 1`; cells with no event are infilled at
the 2nd percentile with `event_occurrance = 0` (lines 142–147, 210). -/
def panelCellTan (events : List PanelEvent) (a : ℤ) (m : String) :
    Option ℚ × ℕ :=
  let cell := cellEvents events a m
  if cell.isEmpty then (tanNoEventFill events, 0)
  else (some (seriesSum (cell.map (fun e => e.tan.or (tanEventFill events)))), 1)

/-- The `ln_total_affected_normalized` column (lines 153–155): the log is
applied to the already-infilled panel column.  `logFn` abstracts the
floating-point `np.log`. -/
def panelCellLnTan (logFn : ℚ → ℚ) (events : List PanelEvent) (a : ℤ)
    (m : String) : Option ℚ :=
  ((panelCellTan events a m).1).map logFn

lemma roundHalfEven_mono {x y : ℚ} (h : x ≤ y) :
    roundHalfEven x ≤ roundHalfEven y := by
  unfold roundHalfEven
  rcases lt_or_ge ⌊x⌋ ⌊y⌋ with hf | hf
  · split_ifs <;> omega
  · have hxy : ⌊x⌋ = ⌊y⌋ := le_antisymm (Int.floor_le_floor h) hf
    rw [hxy]
    split_ifs <;> first | omega | linarith

/-- In a `≤`-sorted list, `getD` is monotone on in-range indices. -/
lemma sorted_getD_mono (v : List ℚ) (hs : List.Sorted (· ≤ ·) v) (i j : ℕ)
    (hij : i ≤ j) (hj : j < v.length) : v.getD i 0 ≤ v.getD j 0 := by
  rcases eq_or_lt_of_le hij with rfl | hlt
  · exact le_refl _
  · have hi : i < v.length := lt_trans hlt hj
    rw [List.getD_eq_getElem _ _ hi, List.getD_eq_getElem _ _ hj]
    exact List.pairwise_iff_getElem.1 hs i j hi hj hlt

/-- Adjacent interpolation nodes are ordered (out-of-range access returns
the left node itself). -/
lemma getD_succ_ge (v : List ℚ) (hs : List.Sorted (· ≤ ·) v) (j : ℕ)
    (hj : j < v.length) : v.getD j 0 ≤ v.getD (j + 1) (v.getD j 0) := by
  by_cases hj1 : j + 1 < v.length
  · rw [List.getD_eq_getElem _ _ hj1, List.getD_eq_getElem _ _ hj]
    exact List.pairwise_iff_getElem.1 hs j (j + 1) hj hj1 (by omega)
  · have hdef : v.getD (j + 1) (v.getD j 0) = v.getD j 0 :=
      List.getD_eq_default _ _ (show v.length ≤ j + 1 by omega)
    rw [hdef]

/-- The linearly-interpolated quantile is monotone in `q`. -/
lemma quantile_mono (xs : List NVal) {q q' a b : ℚ}
    (h0 : 0 ≤ q) (hqq : q ≤ q') (h1 : q' ≤ 1)
    (ha : quantile xs q = some a) (hb : quantile xs q' = some b) : a ≤ b := by
  unfold quantile at ha hb
  set v := List.insertionSort (· ≤ ·) (xs.filterMap id) with hv
  have hs : List.Sorted (· ≤ ·) v := List.sorted_insertionSort _ _
  by_cases hemp : v.isEmpty
  · rw [if_pos hemp] at ha
    exact absurd ha (by simp)
  · rw [if_neg hemp] at ha hb
    simp only [Option.some.injEq] at ha hb
    have hne : v ≠ [] := by simpa [List.isEmpty_iff] using hemp
    have hn : 1 ≤ v.length := List.length_pos.2 hne
    have hnq : (0 : ℚ) ≤ (v.length : ℚ) - 1 := by
      have : (1 : ℚ) ≤ (v.length : ℚ) := by exact_mod_cast hn
      linarith
    set n := v.length with hnv
    set h := q * ((n : ℚ) - 1) with hhd
    set h' := q' * ((n : ℚ) - 1) with hhd'
    have hh0 : 0 ≤ h := mul_nonneg h0 hnq
    have hh0' : 0 ≤ h' := mul_nonneg (le_trans h0 hqq) hnq
    have hhh : h ≤ h' := mul_le_mul_of_nonneg_right hqq hnq
    have hh1 : h' ≤ (n : ℚ) - 1 := by
      calc h' ≤ 1 * ((n : ℚ) - 1) := mul_le_mul_of_nonneg_right h1 hnq
        _ = (n : ℚ) - 1 := one_mul _
    set i := (⌊h⌋).toNat with hid
    set i' := (⌊h'⌋).toNat with hid'
    have hcast : ((i : ℤ) : ℚ) = ((⌊h⌋ : ℤ) : ℚ) := by
      rw [hid, Int.toNat_of_nonneg (Int.floor_nonneg.2 hh0)]
    have hcast' : ((i' : ℤ) : ℚ) = ((⌊h'⌋ : ℤ) : ℚ) := by
      rw [hid', Int.toNat_of_nonneg (Int.floor_nonneg.2 hh0')]
    have hi_le : (i : ℚ) ≤ h := by
      have := Int.floor_le h
      push_cast at hcast ⊢
      linarith [hcast ▸ this]
    have hi_lt : h < (i : ℚ) + 1 := by
      have := Int.lt_floor_add_one h
      push_cast at hcast ⊢
      linarith
    have hi_le' : (i' : ℚ) ≤ h' := by
      have := Int.floor_le h'
      push_cast at hcast' ⊢
      linarith
    have hi_lt' : h' < (i' : ℚ) + 1 := by
      have := Int.lt_floor_add_one h'
      push_cast at hcast' ⊢
      linarith
    have hile : i ≤ i' := by
      have : (i : ℚ) < (i' : ℚ) + 1 := lt_of_le_of_lt (le_trans hi_le hhh) hi_lt'
      have h2 : i < i' + 1 := by exact_mod_cast this
      omega
    have hi'n : i' < n := by
      have : (i' : ℚ) + 1 ≤ (n : ℚ) := by linarith [le_trans hi_le' hh1]
      have h2 : i' + 1 ≤ n := by exact_mod_cast this
      omega
    have hin : i < n := by omega
    rcases eq_or_lt_of_le hile with heq | hii
    · -- same interpolation cell
      rw [← ha, ← hb, ← heq]
      have hd := getD_succ_ge v hs i hin
      nlinarith [mul_nonneg (sub_nonneg.2 hhh)
        (sub_nonneg.2 hd)]
    · -- strictly later cell
      have hi1n : i + 1 < n := by omega
      have hA : a ≤ v.getD (i + 1) (v.getD i 0) := by
        rw [← ha]
        have hd := getD_succ_ge v hs i hin
        nlinarith [mul_nonneg (sub_nonneg.2 (le_of_lt (by linarith [hi_lt] : h - (i:ℚ) < 1)))
          (sub_nonneg.2 hd)]
      have hB : v.getD i' 0 ≤ b := by
        rw [← hb]
        have hd := getD_succ_ge v hs i' hi'n
        nlinarith [mul_nonneg (by linarith [hi_le'] : (0:ℚ) ≤ h' - (i':ℚ))
          (sub_nonneg.2 hd)]
      have hmid : v.getD (i + 1) (v.getD i 0) ≤ v.getD i' 0 := by
        rw [List.getD_eq_getElem _ _ hi1n, ← List.getD_eq_getElem v 0 hi1n]
        exact sorted_getD_mono v hs (i + 1) i' (by omega) hi'n
      linarith

/-- C9 (amended): in panel assembly, an event cell gets
`event_occurrance = 1` and the sum of its events' values with missing
`total_affected_normalized` infilled at the 5th-percentile constant; a
cell with no event gets `event_occurrance = 0` and the 2nd-percentile
constant; the log column is the log of the already-infilled value; and
the no-event constant never exceeds the event constant.  (The two
constants need not differ on a non-degenerate distribution — see the
counterexample — so the claim's distinctness assertion is dropped.) -/
theorem panel_infill (events : List PanelEvent) (logFn : ℚ → ℚ) (a : ℤ)
    (m : String) :
    (cellEvents events a m = [] →
      panelCellTan events a m = (tanNoEventFill events, 0)) ∧
    (cellEvents events a m ≠ [] →
      panelCellTan events a m
        = (some (seriesSum ((cellEvents events a m).map
            (fun e => e.tan.or (tanEventFill events)))), 1)) ∧
    (∀ e ∈ cellEvents events a m, e.tan = none →
      e.tan.or (tanEventFill events) = tanEventFill events) ∧
    panelCellLnTan logFn events a m = ((panelCellTan events a m).1).map logFn ∧
    (∀ x2 x5, tanNoEventFill events = some x2 → tanEventFill events = some x5 →
      x2 ≤ x5) := by
  refine ⟨?_, ?_, ?_, rfl, ?_⟩
  · intro h
    simp [panelCellTan, h]
  · intro h
    simp [panelCellTan, List.isEmpty_iff, h]
  · intro e he htan
    rw [htan]
    rfl
  · intro x2 x5 h2 h5
    unfold tanNoEventFill fillValue at h2
    unfold tanEventFill fillValue at h5
    cases hq2 : quantile (events.map (·.tan)) (2/100) with
    | none => rw [hq2] at h2; exact absurd h2 (by simp)
    | some y2 =>
      cases hq5 : quantile (events.map (·.tan)) (5/100) with
      | none => rw [hq5] at h5; exact absurd h5 (by simp)
      | some y5 =>
        rw [hq2] at h2
        rw [hq5] at h5
        simp only [Option.map_some', Option.some.injEq] at h2 h5
        have hy : y2 ≤ y5 := quantile_mono _ (by norm_num) (by norm_num)
          (by norm_num) hq2 hq5
        have hr : roundHalfEven (y2 * 100000) ≤ roundHalfEven (y5 * 100000) :=
          roundHalfEven_mono (by linarith)
        rw [← h2, ← h5]
        have : ((roundHalfEven (y2 * 100000) : ℤ) : ℚ)
            ≤ ((roundHalfEven (y5 * 100000) : ℤ) : ℚ) := by exact_mod_cast hr
        linarith

/-- Four real events with non-degenerate normalized impacts `[1, 1, 1, 2]`:
the interpolated 2nd and 5th percentiles are both `1`. -/
def c9Events : List PanelEvent :=
  [⟨1, "01-2015", some 1, some 1⟩, ⟨2, "01-2015", some 1, some 1⟩,
   ⟨3, "01-2015", some 1, some 1⟩, ⟨4, "01-2015", some 2, some 2⟩]

/-- C9's distinctness assertion is false: on the non-degenerate
distribution `[1, 1, 1, 2]` the event (5th-percentile) and no-event
(2nd-percentile) infill constants coincide at `1`. -/
theorem panel_fill_constants_coincide_cex :
    tanEventFill c9Events = some 1 ∧
    tanNoEventFill c9Events = some 1 ∧
    some (1 : ℚ) ∈ c9Events.map (·.tan) ∧
    some (2 : ℚ) ∈ c9Events.map (·.tan) ∧
    (1 : ℚ) ≠ 2 := by
  refine ⟨?_, ?_, by decide, by decide, by norm_num⟩ <;>
    norm_num [tanEventFill, tanNoEventFill, fillValue, quantile, roundHalfEven,
      c9Events, List.insertionSort, List.orderedInsert, List.filterMap]

/-- Witness for `panel_infill`: the cell `(1, "01-2015")` of the concrete
event table has an event, so it keeps `event_occurrance = 1` and its
infilled sum. -/
theorem panel_infill_witness :
    panelCellTan c9Events 1 "01-2015"
      = (some (seriesSum ((cellEvents c9Events 1 "01-2015").map
          (fun e => e.tan.or (tanEventFill c9Events)))), 1) :=
  (panel_infill c9Events id 1 "01-2015").2.1 (by decide)

end FloodPipeline
